import Mathlib

/-!
Shallow embedding of the execution-session controller of nemo-web,
`src/components/rightPanel/executionPanel/ExecutionPanel.tsx`.

The React component state (the `useState`/`useRef` hooks, source lines
55-76) is modelled as the record `Ctrl`.  The async `runProgram` pipeline
(lines 95-129) is modelled as a small-step transition system `step` over
`Config`: each synchronous block between two `await` points of the source
is one atomic event, and user events (`runStart`, `stopClick`, the trace
buttons) and worker completions interleave freely between those blocks,
matching the single-threaded cooperative scheduling of the browser event
loop.  Worker completions are delivered by the environment; a completion
for a request issued before a `stop()` may still be delivered afterwards,
since the response may already be in flight when the worker is terminated
(worker termination is fire-and-forget, spec sections 5 and 6).

Pure helpers (`stopProgram`, `isTracingCurrentlyAllowed`, the tracing
guard, the binding-map construction, the result-tab derivation and the
input-registry index update) are direct translations of the corresponding
source functions and are shared by the step relation.
-/

namespace ExecutionPanel

/-- Opaque binary blob attached to an input binding; only its identity
matters for the properties below, so it is modelled as a number. -/
abbrev Blob := Nat

/-- Tracing format tag, source `enum TracingFormat` (lines 44-48). -/
inductive TracingFormat where
  | NONE
  | ASCII
  | EVONNE
deriving DecidableEq

/-- Which of the two trace operations was requested:
`traceFactAscii` (lines 135-150) or `traceFactEvonne` (lines 152-167). -/
inductive TKind where
  | ascii
  | evonne
deriving DecidableEq

/-- Result of a successful `parseProgram`, the fields of `NemoProgramInfo`
used by the panel (EDB predicates, output predicates, parsing duration). -/
structure NemoProgramInfo where
  edbPredicates : List String
  outputPredicates : List String
  parsingDuration : Nat
deriving DecidableEq

/-- Result of `getCounts`: per-output-predicate row counts (a JS object,
modelled as an association list in insertion order) plus the aggregate
count over derived predicates. -/
structure FactCounts where
  outputPredicates : List (String × Nat)
  factsOfDerivedPredicates : Nat
deriving DecidableEq

/-- One input binding of the registry, source state `inputs` (line 55):
a resource name and an optional attached file (the source filters on
`input[1] !== undefined` before `start`, line 113, so the file slot can
be empty). -/
structure Binding where
  resource : String
  file : Option Blob
deriving DecidableEq

/-- The component state relevant to the session lifecycle: one field per
`useState`/`useRef` hook of the source (lines 55-76).  `workerRef` holds
the generation number of the currently owned `NemoWorker`, `none` when no
worker is owned. -/
structure Ctrl where
  activeKey : String
  workerRef : Option Nat
  programInfo : Option NemoProgramInfo
  parseError : Option String
  initializationDuration : Nat
  reasoningDuration : Nat
  factCounts : Option FactCounts
  isProgramRunning : Bool
  isWorkerActive : Bool
  tracingFactText : String
  tracingResult : Option String
  tracingFormat : TracingFormat
deriving DecidableEq

/-- Initial component state: the `useState` initialisers of lines 55-76. -/
def initCtrl : Ctrl :=
  { activeKey := "info"
    workerRef := none
    programInfo := none
    parseError := none
    initializationDuration := 0
    reasoningDuration := 0
    factCounts := none
    isProgramRunning := false
    isWorkerActive := false
    tracingFactText := ""
    tracingResult := none
    tracingFormat := TracingFormat.NONE }

/-- Source `stopProgram` (lines 80-93): reset the active tab, drop the
worker handle (its termination is recorded by the step relation, not
here), clear `programInfo`, `parseError`, both durations, `factCounts`,
and the running flag.  Note that the tracing fields and `isWorkerActive`
are not touched by the source. -/
def stopProgram (s : Ctrl) : Ctrl :=
  { s with
    activeKey := "info"
    workerRef := none
    programInfo := none
    parseError := none
    initializationDuration := 0
    reasoningDuration := 0
    factCounts := none
    isProgramRunning := false }

/-- Source `isTracingCurrentlyAllowed` (lines 131-133). -/
def isTracingCurrentlyAllowed (s : Ctrl) : Bool :=
  s.programInfo.isSome && !s.isWorkerActive

/-- Synchronous guard shared by `traceFactAscii` and `traceFactEvonne`
(lines 136-138 and 153-155): the operation proceeds only when tracing is
currently allowed and a worker handle is owned; otherwise it returns at
once without contacting the worker and without touching any state.  The
result is the worker generation the request is sent to (paired with the
requested format), or `none` when the call is rejected. -/
def traceFactStart (k : TKind) (s : Ctrl) : Option (Nat × TKind) :=
  if !(isTracingCurrentlyAllowed s) || s.workerRef.isNone then none
  else s.workerRef.map fun g => (g, k)

/-- Completion of a trace operation (lines 140-149 and 157-166): on
success store the payload under the requested format, on failure store
the error description under format `NONE`. -/
def traceFactComplete (k : TKind) (res : Except String String) (s : Ctrl) : Ctrl :=
  match res with
  | Except.ok payload =>
      { s with
        tracingFormat := match k with
          | TKind.ascii => TracingFormat.ASCII
          | TKind.evonne => TracingFormat.EVONNE
        tracingResult := some payload }
  | Except.error e =>
      { s with
        tracingFormat := TracingFormat.NONE
        tracingResult := some e }

/-- The session phase of the specification's state machine (spec section
4.2), derived from the component state: the source has no explicit phase
variable, so `Running` is `isProgramRunning`, `Failed` is a stored error,
`Ready` is stored fact counts, and `Idle` is everything else. -/
inductive Phase where
  | Idle
  | Running
  | Ready
  | Failed
deriving DecidableEq

/-- Observable phase of a component state (see `Phase`). -/
def phase (s : Ctrl) : Phase :=
  if s.isProgramRunning then Phase.Running
  else if s.parseError.isSome then Phase.Failed
  else if s.factCounts.isSome then Phase.Ready
  else Phase.Idle

/-- Pipeline stage of one in-flight `runProgram` invocation, indexed by
the generation of the worker it captured (`worker`, line 101).  Each
stage names the `await` the invocation is suspended on. -/
inductive PipeSt where
  | creating (g : Nat)
  | parsing (g : Nat)
  | marking (g : Nat)
  | starting (g : Nat)
  | counting (g : Nat)
deriving DecidableEq

/-- A request issued to a worker, recorded to observe which operations
actually reach a worker. -/
inductive Req where
  | create (g : Nat)
  | parse (g : Nat)
  | mark (g : Nat)
  | start (g : Nat)
  | counts (g : Nat)
  | traceAscii (g : Nat)
  | traceEvonne (g : Nat)
deriving DecidableEq

/-- Events: user actions (`runStart`, `stopClick`, the two trace
buttons), worker completions for each awaited pipeline step (delivered by
the environment, success or failure), the out-of-band busy/idle
notification, and trace completions. -/
inductive Ev where
  | runStart
  | stopClick
  | createOk (g : Nat)
  | parseOk (g : Nat) (info : NemoProgramInfo)
  | parseErr (g : Nat) (msg : String)
  | markOk (g : Nat)
  | markErr (g : Nat) (msg : String)
  | startOk (g : Nat) (initMs reasonMs : Nat)
  | startErr (g : Nat) (msg : String)
  | countsOk (g : Nat) (fc : FactCounts)
  | countsErr (g : Nat) (msg : String)
  | busySet (b : Bool)
  | traceAsciiClick
  | traceEvonneClick
  | traceDone (g : Nat) (k : TKind) (res : Except String String)

/-- Whole-system configuration: the component state, the generation
counter for fresh workers, the set of in-flight `runProgram` pipelines,
the outstanding trace requests, the log of requests that reached a
worker, and the workers whose termination has been requested. -/
structure Config where
  ctrl : Ctrl
  nextGen : Nat
  pipelines : List PipeSt
  pendingTraces : List (Nat × TKind)
  requests : List Req
  terminated : List Nat
deriving DecidableEq

/-- Initial configuration. -/
def initConfig : Config :=
  { ctrl := initCtrl
    nextGen := 0
    pipelines := []
    pendingTraces := []
    requests := []
    terminated := [] }

/-- The `catch` block of `runProgram` (lines 120-128) as reached from the
pipeline stage `p0`: store the failure description in `parseError`, clear
the running flag, and end the pipeline.  The source performs no
staleness check before these writes. -/
def failStep (c : Config) (p0 : PipeSt) (msg : String) : Config :=
  if c.pipelines.contains p0 then
    { c with
      ctrl := { c.ctrl with parseError := some msg, isProgramRunning := false }
      pipelines := c.pipelines.filter fun p => !(p == p0) }
  else c

/-- Synchronous part of a trace button click (lines 135-138 / 152-155):
when the guard accepts, the request is sent to the owned worker and
recorded as outstanding; otherwise nothing happens. -/
def traceClick (c : Config) (k : TKind) : Config :=
  match traceFactStart k c.ctrl with
  | none => c
  | some pending =>
      { c with
        pendingTraces := c.pendingTraces ++ [pending]
        requests := c.requests ++
          [match k with
           | TKind.ascii => Req.traceAscii pending.1
           | TKind.evonne => Req.traceEvonne pending.1] }

/-- One atomic step of the system.  `runStart` and `stopClick` are the
synchronous bodies of `runProgram` up to its first `await` (lines 96-101)
and of `stopProgram` (lines 80-93); the `...Ok`/`...Err` events are the
continuations after each awaited worker call of `runProgram`
(lines 101-128), which the source runs without any check that the
captured worker is still the current one. -/
def step (c : Config) (e : Ev) : Config :=
  match e with
  | Ev.runStart =>
      { c with
        ctrl := { stopProgram c.ctrl with isProgramRunning := true }
        terminated := c.terminated ++ c.ctrl.workerRef.toList
        pipelines := c.pipelines ++ [PipeSt.creating c.nextGen]
        requests := c.requests ++ [Req.create c.nextGen]
        nextGen := c.nextGen + 1 }
  | Ev.stopClick =>
      { c with
        ctrl := stopProgram c.ctrl
        terminated := c.terminated ++ c.ctrl.workerRef.toList }
  | Ev.createOk g =>
      if c.pipelines.contains (PipeSt.creating g) then
        { c with
          ctrl := { c.ctrl with workerRef := some g }
          pipelines := c.pipelines.map fun p =>
            if p == PipeSt.creating g then PipeSt.parsing g else p
          requests := c.requests ++ [Req.parse g] }
      else c
  | Ev.parseOk g info =>
      if c.pipelines.contains (PipeSt.parsing g) then
        { c with
          ctrl := { c.ctrl with programInfo := some info }
          pipelines := c.pipelines.map fun p =>
            if p == PipeSt.parsing g then PipeSt.marking g else p
          requests := c.requests ++ [Req.mark g] }
      else c
  | Ev.parseErr g msg => failStep c (PipeSt.parsing g) msg
  | Ev.markOk g =>
      if c.pipelines.contains (PipeSt.marking g) then
        { c with
          pipelines := c.pipelines.map fun p =>
            if p == PipeSt.marking g then PipeSt.starting g else p
          requests := c.requests ++ [Req.start g] }
      else c
  | Ev.markErr g msg => failStep c (PipeSt.marking g) msg
  | Ev.startOk g initMs reasonMs =>
      if c.pipelines.contains (PipeSt.starting g) then
        { c with
          ctrl := { c.ctrl with
            initializationDuration := initMs
            reasoningDuration := reasonMs }
          pipelines := c.pipelines.map fun p =>
            if p == PipeSt.starting g then PipeSt.counting g else p
          requests := c.requests ++ [Req.counts g] }
      else c
  | Ev.startErr g msg => failStep c (PipeSt.starting g) msg
  | Ev.countsOk g fc =>
      if c.pipelines.contains (PipeSt.counting g) then
        { c with
          ctrl := { c.ctrl with factCounts := some fc, isProgramRunning := false }
          pipelines := c.pipelines.filter fun p => !(p == PipeSt.counting g) }
      else c
  | Ev.countsErr g msg => failStep c (PipeSt.counting g) msg
  | Ev.busySet b => { c with ctrl := { c.ctrl with isWorkerActive := b } }
  | Ev.traceAsciiClick => traceClick c TKind.ascii
  | Ev.traceEvonneClick => traceClick c TKind.evonne
  | Ev.traceDone g k res =>
      if c.pendingTraces.contains (g, k) then
        { c with
          pendingTraces := c.pendingTraces.erase (g, k)
          ctrl := traceFactComplete k res c.ctrl }
      else c

/-- Run a sequence of events from the initial configuration. -/
def runTrace (t : List Ev) : Config :=
  t.foldl step initConfig

/-- The worker handles currently owned by the controller (the content of
`workerRef`, line 57). -/
def ownedHandles (c : Config) : List Nat :=
  c.ctrl.workerRef.toList

/-- JS `Object` assignment semantics used by `Object.fromEntries`: insert
a key/value pair into an association list; when the key is already
present the first occurrence keeps its position and gets the new value,
otherwise the pair is appended. -/
def upsert : List (String × Option Blob) → String → Option Blob → List (String × Option Blob)
  | [], k, v => [(k, v)]
  | kv :: rest, k, v =>
      if kv.1 == k then (kv.1, v) :: rest else kv :: upsert rest k v

/-- The entry list built at lines 110-114: each input mapped to the pair
(resource, file), keeping only pairs whose file slot is present. -/
def startEntries (inputs : List Binding) : List (String × Option Blob) :=
  (inputs.map fun i => (i.resource, i.file)).filter fun p => p.2.isSome

/-- JS `Object.fromEntries`: fold the entries left to right into an
object, later entries with the same key overwriting earlier ones. -/
def objectFromEntries (entries : List (String × Option Blob)) : List (String × Option Blob) :=
  entries.foldl (fun acc kv => upsert acc kv.1 kv.2) []

/-- The binding map submitted to `worker.start` (lines 109-115). -/
def startBindings (inputs : List Binding) : List (String × Option Blob) :=
  objectFromEntries (startEntries inputs)

/-- Lexicographic comparison of character lists by code point, the order
underlying JS default string sorting. -/
def lexLe : List Char → List Char → Bool
  | [], _ => true
  | _ :: _, [] => false
  | a :: as, b :: bs =>
      if a.toNat < b.toNat then true
      else if b.toNat < a.toNat then false
      else lexLe as bs

/-- Lexicographic order on strings. -/
def strLe (a b : String) : Bool :=
  lexLe a.data b.data

/-- `strLe` as a relation, for use with the sorting machinery. -/
def strLeProp (a b : String) : Prop :=
  strLe a b = true

instance strLeProp.decRel : DecidableRel strLeProp :=
  fun a b => instDecidableEqBool (strLe a b) true

/-- The `sort()` call of line 369 (and 359): sort predicate names
lexicographically. -/
def sortStrings (l : List String) : List String :=
  List.insertionSort strLeProp l

/-- The tab label of lines 371-376: the predicate name, followed by its
row count in parentheses when `factCounts` is present and contains an
entry for the predicate. -/
def tabTitle (factCounts : Option FactCounts) (predicate : String) : String :=
  match factCounts with
  | some fc =>
      match fc.outputPredicates.find? (fun q => q.1 == predicate) with
      | some q => predicate ++ " (" ++ toString q.2 ++ ")"
      | none => predicate
  | none => predicate

/-- The result-tab labels of lines 369-384, in render order. -/
def resultTabs (outputPredicates : List String) (factCounts : Option FactCounts) : List String :=
  (sortStrings outputPredicates).map (tabTitle factCounts)

/-- A binding as the JS runtime sees it: either field may be absent
(`undefined`), which happens for array holes and for objects built by
spreading `undefined`. -/
structure JsBinding where
  resource : Option String
  file : Option Blob
deriving DecidableEq

/-- An array hole, read back as `undefined` fields. -/
def holeBinding : JsBinding :=
  { resource := none, file := none }

/-- JS array element assignment `a[i] = x`: in range it replaces the
element; past the end it extends the array to length `i + 1`, creating
holes in between.  No failure is signalled in either case. -/
def jsSetAt (l : List JsBinding) (i : Nat) (x : JsBinding) : List JsBinding :=
  if i < l.length then l.set i x
  else l ++ List.replicate (i - l.length) holeBinding ++ [x]

/-- The resource-name update of lines 208-215:
`newInputs[i] = { ...inputs[i], resource: v }` on a copy of the list.
When `i` is out of range, `inputs[i]` is `undefined`, the spread yields
an empty object, and the assignment silently extends the array. -/
def replaceResourceAt (l : List JsBinding) (i : Nat) (v : String) : List JsBinding :=
  jsSetAt l i
    { resource := some v
      file := match l[i]? with
              | some b => b.file
              | none => none }

/-- The file update of lines 225-236:
`newInputs[i] = { ...inputs[i], file }`, same structure as
`replaceResourceAt`. -/
def replaceFileAt (l : List JsBinding) (i : Nat) (f : Blob) : List JsBinding :=
  jsSetAt l i
    { resource := match l[i]? with
                  | some b => b.resource
                  | none => none
      file := some f }

/-- Sample parse result used by concrete scenarios below. -/
def piSample : NemoProgramInfo :=
  { edbPredicates := ["e"], outputPredicates := ["p"], parsingDuration := 2 }

/-- Sample fact counts: predicate p has 3 rows, q has 0 (the reference
scenario of the spec). -/
def fcSample : FactCounts :=
  { outputPredicates := [("p", 3), ("q", 0)], factsOfDerivedPredicates := 3 }

/-- A configuration whose worker is busy while a parsed program and an
owned worker are present. -/
def busyConfig : Config :=
  { initConfig with
    ctrl := { initCtrl with
      programInfo := some piSample
      workerRef := some 0
      isWorkerActive := true } }

/-- A configuration with a parsed program, an idle worker flag, but no
owned worker handle. -/
def noHandleConfig : Config :=
  { initConfig with
    ctrl := { initCtrl with programInfo := some piSample } }

/-- Event sequence in which `stop()` is clicked while the first pipeline
awaits its parse result, and that parse result (already in flight when
the worker was terminated) is delivered afterwards. -/
def staleTrace : List Ev :=
  [Ev.runStart, Ev.createOk 0, Ev.stopClick, Ev.parseOk 0 piSample]

/-- The component state reached by `staleTrace`. -/
def staleState : Ctrl :=
  (runTrace staleTrace).ctrl

/-- The run of `runProgram` that fails at the start-execution step:
worker creation, parse and mark-default-exports succeed, `start` fails. -/
def c4trace (info : NemoProgramInfo) (msg : String) : Config :=
  runTrace [Ev.runStart, Ev.createOk 0, Ev.parseOk 0 info, Ev.markOk 0, Ev.startErr 0 msg]

/-- A complete successful run followed by a successful ASCII trace. -/
def c5trace : List Ev :=
  [Ev.runStart, Ev.createOk 0, Ev.parseOk 0 piSample, Ev.markOk 0,
   Ev.startOk 0 5 12, Ev.countsOk 0 fcSample,
   Ev.traceAsciiClick, Ev.traceDone 0 TKind.ascii (Except.ok "trace-output")]

/-- Resetting an already reset state changes nothing. -/
theorem stopProgram_idem (s : Ctrl) : stopProgram (stopProgram s) = stopProgram s :=
  rfl

/-- Splitting a trace at an event-list boundary. -/
theorem runTrace_append (t l : List Ev) :
    runTrace (t ++ l) = l.foldl step (runTrace t) := by
  simp [runTrace, List.foldl_append]

/-- A second `stopClick` directly after a first one changes nothing at
all: the handle is already released, so no further termination is
recorded and the state reset is idempotent. -/
theorem step_stop_stop (c : Config) :
    step (step c Ev.stopClick) Ev.stopClick = step c Ev.stopClick := by
  show ({ step c Ev.stopClick with
          ctrl := stopProgram (stopProgram c.ctrl)
          terminated := (step c Ev.stopClick).terminated ++ ([] : List Nat) } : Config)
      = step c Ev.stopClick
  rw [stopProgram_idem, List.append_nil]
  rfl

/-- Case analysis for one lexicographic comparison step. -/
theorem lexLe_cons_iff (a b : Char) (as bs : List Char) :
    lexLe (a :: as) (b :: bs) = true ↔
      a.toNat < b.toNat ∨ (a.toNat = b.toNat ∧ lexLe as bs = true) := by
  by_cases h1 : a.toNat < b.toNat
  · simp [lexLe, h1]
  · by_cases h2 : b.toNat < a.toNat
    · have hf : lexLe (a :: as) (b :: bs) = false := by
        simp [lexLe, h1, h2]
      rw [hf]
      constructor
      · intro h; exact absurd h (by simp)
      · intro h
        exfalso
        rcases h with h | ⟨h, _⟩ <;> omega
    · have h3 : a.toNat = b.toNat := by omega
      simp [lexLe, h1, h2, h3]

/-- `lexLe` is total. -/
theorem lexLe_total : ∀ as bs : List Char, lexLe as bs = true ∨ lexLe bs as = true
  | [], _ => Or.inl rfl
  | _ :: _, [] => Or.inr rfl
  | a :: as, b :: bs => by
      rcases Nat.lt_trichotomy a.toNat b.toNat with h | h | h
      · exact Or.inl ((lexLe_cons_iff a b as bs).mpr (Or.inl h))
      · rcases lexLe_total as bs with ih | ih
        · exact Or.inl ((lexLe_cons_iff a b as bs).mpr (Or.inr ⟨h, ih⟩))
        · exact Or.inr ((lexLe_cons_iff b a bs as).mpr (Or.inr ⟨h.symm, ih⟩))
      · exact Or.inr ((lexLe_cons_iff b a bs as).mpr (Or.inl h))

/-- `lexLe` is transitive. -/
theorem lexLe_trans : ∀ as bs cs : List Char,
    lexLe as bs = true → lexLe bs cs = true → lexLe as cs = true
  | [], _, _, _, _ => rfl
  | _ :: _, [], _, h1, _ => by simp [lexLe] at h1
  | _ :: _, _ :: _, [], _, h2 => by simp [lexLe] at h2
  | a :: as, b :: bs, c :: cs, h1, h2 => by
      rcases (lexLe_cons_iff a b as bs).mp h1 with hab | ⟨hab, hab2⟩ <;>
        rcases (lexLe_cons_iff b c bs cs).mp h2 with hbc | ⟨hbc, hbc2⟩
      · exact (lexLe_cons_iff a c as cs).mpr (Or.inl (by omega))
      · exact (lexLe_cons_iff a c as cs).mpr (Or.inl (by omega))
      · exact (lexLe_cons_iff a c as cs).mpr (Or.inl (by omega))
      · exact (lexLe_cons_iff a c as cs).mpr
          (Or.inr ⟨by omega, lexLe_trans as bs cs hab2 hbc2⟩)

/-- `lexLe` is antisymmetric. -/
theorem lexLe_antisymm : ∀ as bs : List Char,
    lexLe as bs = true → lexLe bs as = true → as = bs
  | [], [], _, _ => rfl
  | [], _ :: _, _, h2 => by simp [lexLe] at h2
  | _ :: _, [], h1, _ => by simp [lexLe] at h1
  | a :: as, b :: bs, h1, h2 => by
      rcases (lexLe_cons_iff a b as bs).mp h1 with hab | ⟨hab, hab2⟩
      · rcases (lexLe_cons_iff b a bs as).mp h2 with hba | ⟨hba, hba2⟩
        · exact absurd hab (by omega)
        · exact absurd hab (by omega)
      · rcases (lexLe_cons_iff b a bs as).mp h2 with hba | ⟨hba, hba2⟩
        · exact absurd hba (by omega)
        · have hv : a.val.toNat = b.val.toNat := hab
          rw [Char.ext (UInt32.ext hv), lexLe_antisymm as bs hab2 hba2]

/-- The sorted predicate list is sorted. -/
theorem sortStrings_sorted (l : List String) : List.Sorted strLeProp (sortStrings l) := by
  haveI : IsTotal String strLeProp := ⟨fun a b => lexLe_total a.data b.data⟩
  haveI : IsTrans String strLeProp := ⟨fun a b c => lexLe_trans a.data b.data c.data⟩
  exact List.sorted_insertionSort strLeProp l

/-- Sorting permutes the predicate list. -/
theorem sortStrings_perm (l : List String) : List.Perm (sortStrings l) l :=
  List.perm_insertionSort strLeProp l

/-- Sorting is invariant under permutation of its input: the tab order
does not depend on the arrival order of predicate names. -/
theorem sortStrings_eq_of_perm (l1 l2 : List String) (h : List.Perm l1 l2) :
    sortStrings l1 = sortStrings l2 := by
  haveI : IsAntisymm String strLeProp :=
    ⟨fun a b h1 h2 => by
      cases a; cases b
      exact congrArg String.mk (lexLe_antisymm _ _ h1 h2)⟩
  exact List.eq_of_perm_of_sorted
    ((sortStrings_perm l1).trans (h.trans (sortStrings_perm l2).symm))
    (sortStrings_sorted l1) (sortStrings_sorted l2)

/-- Looking up the key just inserted by `upsert` finds the new value. -/
theorem find?_upsert_self (m : List (String × Option Blob)) (k : String) (v : Option Blob) :
    (upsert m k v).find? (fun kv => kv.1 == k) = some (k, v) := by
  induction m with
  | nil => simp [upsert]
  | cons kv rest ih =>
      by_cases h : kv.1 == k
      · have hk : kv.1 = k := by simpa using h
        simp [upsert, h, List.find?_cons, hk]
      · simp [upsert, h, List.find?_cons, ih]

/-- `upsert` does not affect lookups of other keys. -/
theorem find?_upsert_ne (m : List (String × Option Blob)) (k k2 : String) (v : Option Blob)
    (h : (k == k2) = false) :
    (upsert m k v).find? (fun kv => kv.1 == k2) = m.find? (fun kv => kv.1 == k2) := by
  induction m with
  | nil => simp [upsert, h]
  | cons kv rest ih =>
      by_cases hk : kv.1 == k
      · have hk1 : kv.1 = k := by simpa using hk
        have h2 : (kv.1 == k2) = false := by rw [hk1]; exact h
        simp [upsert, hk, List.find?_cons, h2]
      · by_cases h3 : kv.1 == k2
        · simp [upsert, hk, List.find?_cons, h3]
        · simp [upsert, hk, List.find?_cons, h3, ih]

/-- A lookup in the object built by folding `upsert` over an entry list
finds the value of the last entry with that key, else falls back to the
accumulator. -/
theorem find?_foldl_upsert (l : List (String × Option Blob))
    (acc : List (String × Option Blob)) (k : String) :
    (l.foldl (fun a kv => upsert a kv.1 kv.2) acc).find? (fun kv => kv.1 == k)
      = (l.reverse.find? (fun kv => kv.1 == k)).or (acc.find? (fun kv => kv.1 == k)) := by
  induction l generalizing acc with
  | nil => simp
  | cons kv l ih =>
      rw [List.foldl_cons, ih, List.reverse_cons, List.find?_append, Option.or_assoc]
      congr 1
      by_cases h : kv.1 == k
      · have hk : kv.1 = k := by simpa using h
        subst hk
        rw [find?_upsert_self]
        simp [List.find?_cons]
      · rw [find?_upsert_ne acc kv.1 k kv.2 (by simpa using h)]
        simp [List.find?_cons, h]

/-- The correspondence between lookups in the filtered entry list and
lookups among the bindings with a present file. -/
theorem find?_entries_eq (l : List Binding) (k : String) :
    (((l.map fun b => (b.resource, b.file)).filter fun q => q.2.isSome).find?
        (fun kv => kv.1 == k)).map Prod.snd
      = ((l.filter fun b => b.file.isSome).find? (fun b => b.resource == k)).map Binding.file := by
  induction l with
  | nil => rfl
  | cons b l ih =>
      cases hf : b.file.isSome with
      | true =>
          cases hr : b.resource == k with
          | true =>
              simp only [List.map_cons, List.filter_cons_of_pos,
                List.find?_cons_of_pos, hf, hr]
              rfl
          | false =>
              simp only [List.map_cons, List.filter_cons_of_pos,
                List.find?_cons_of_neg, hf, hr, Bool.false_eq_true,
                not_false_eq_true]
              exact ih
      | false =>
          simp only [List.map_cons, List.filter_cons_of_neg, hf,
            Bool.false_eq_true, not_false_eq_true]
          exact ih

/-- Claim C1: after a `stop()` that clears the handle and resets the
state, the delivery of the parse result to the still-suspended pipeline
writes `programInfo` (and sends the next worker request): the source
performs no check that the captured worker is still current, so the
stale pipeline does mutate SessionState rather than abort. -/
theorem C1_stale_pipeline_mutates :
    (runTrace [Ev.runStart, Ev.createOk 0, Ev.stopClick]).ctrl.workerRef = none ∧
    (runTrace [Ev.runStart, Ev.createOk 0, Ev.stopClick]).ctrl.programInfo = none ∧
    staleState.workerRef = none ∧
    staleState.programInfo = some piSample ∧
    (runTrace staleTrace).requests.contains (Req.mark 0) = true :=
  ⟨rfl, rfl, rfl, rfl, rfl⟩

/-- Claim C2: over every event sequence, at most one worker handle is
owned at any instant; immediately after a `stopClick` the handle is
released, `programInfo`, `parseError` and `factCounts` are cleared, both
durations are zero and the phase is `Idle`; and a `runStart` releases
(and requests termination of) the previously owned handle before any new
handle is acquired. -/
theorem C2_single_owner_and_stop_resets (t : List Ev) :
    (ownedHandles (runTrace t)).length ≤ 1 ∧
    (runTrace (t ++ [Ev.stopClick])).ctrl.workerRef = none ∧
    (runTrace (t ++ [Ev.stopClick])).ctrl.programInfo = none ∧
    (runTrace (t ++ [Ev.stopClick])).ctrl.parseError = none ∧
    (runTrace (t ++ [Ev.stopClick])).ctrl.factCounts = none ∧
    (runTrace (t ++ [Ev.stopClick])).ctrl.initializationDuration = 0 ∧
    (runTrace (t ++ [Ev.stopClick])).ctrl.reasoningDuration = 0 ∧
    phase (runTrace (t ++ [Ev.stopClick])).ctrl = Phase.Idle ∧
    (runTrace (t ++ [Ev.runStart])).ctrl.workerRef = none ∧
    (match (runTrace t).ctrl.workerRef with
     | some w => w ∈ (runTrace (t ++ [Ev.runStart])).terminated
     | none => True) := by
  have hs : runTrace (t ++ [Ev.stopClick]) = step (runTrace t) Ev.stopClick := by
    rw [runTrace_append]; rfl
  have hr : runTrace (t ++ [Ev.runStart]) = step (runTrace t) Ev.runStart := by
    rw [runTrace_append]; rfl
  refine ⟨?_, ?_, ?_, ?_, ?_, ?_, ?_, ?_, ?_, ?_⟩
  · cases h : (runTrace t).ctrl.workerRef <;> simp [ownedHandles, h]
  · rw [hs]; rfl
  · rw [hs]; rfl
  · rw [hs]; rfl
  · rw [hs]; rfl
  · rw [hs]; rfl
  · rw [hs]; rfl
  · rw [hs]; rfl
  · rw [hr]; rfl
  · cases h : (runTrace t).ctrl.workerRef with
    | none => simp
    | some w =>
        rw [hr]
        simp [step, h, Option.toList]

/-- Claim C3 counterexample: a reachable state in which the claimed
precondition holds (`programInfo` populated, worker not busy) yet both
trace operations are rejected without contacting any worker, because no
worker handle is owned; so acceptance is not equivalent to the claimed
precondition. -/
theorem C3_accepted_iff_counterexample :
    staleState.programInfo.isSome = true ∧
    staleState.isWorkerActive = false ∧
    isTracingCurrentlyAllowed staleState = true ∧
    traceFactStart TKind.ascii staleState = none ∧
    traceFactStart TKind.evonne staleState = none :=
  ⟨rfl, rfl, rfl, rfl, rfl⟩

/-- Claim C3 (amended): a trace operation is accepted if and only if
`programInfo` is populated, the worker is not busy, and a worker handle
is owned; and every call made while the worker is busy is rejected
synchronously, reaches no worker, and leaves the whole configuration
(including the stored trace result and format) unchanged. -/
theorem C3_accepted_iff (c : Config) :
    ((traceFactStart TKind.ascii c.ctrl).isSome
        = (c.ctrl.programInfo.isSome && !c.ctrl.isWorkerActive && c.ctrl.workerRef.isSome)) ∧
    ((traceFactStart TKind.evonne c.ctrl).isSome
        = (c.ctrl.programInfo.isSome && !c.ctrl.isWorkerActive && c.ctrl.workerRef.isSome)) ∧
    (c.ctrl.isWorkerActive = true →
      traceFactStart TKind.ascii c.ctrl = none ∧
      traceFactStart TKind.evonne c.ctrl = none ∧
      step c Ev.traceAsciiClick = c ∧
      step c Ev.traceEvonneClick = c) := by
  refine ⟨?_, ?_, ?_⟩
  · cases hp : c.ctrl.programInfo <;> cases hw : c.ctrl.workerRef <;>
      cases hb : c.ctrl.isWorkerActive <;>
      simp [traceFactStart, isTracingCurrentlyAllowed, hp, hw, hb]
  · cases hp : c.ctrl.programInfo <;> cases hw : c.ctrl.workerRef <;>
      cases hb : c.ctrl.isWorkerActive <;>
      simp [traceFactStart, isTracingCurrentlyAllowed, hp, hw, hb]
  · intro hb
    have h1 : traceFactStart TKind.ascii c.ctrl = none := by
      simp [traceFactStart, isTracingCurrentlyAllowed, hb]
    have h2 : traceFactStart TKind.evonne c.ctrl = none := by
      simp [traceFactStart, isTracingCurrentlyAllowed, hb]
    exact ⟨h1, h2, by simp [step, traceClick, h1], by simp [step, traceClick, h2]⟩

/-- Claim C3 amended witness: in the busy configuration the trace
operation is rejected and nothing changes. -/
theorem C3_accepted_iff_witness :
    busyConfig.ctrl.isWorkerActive = true ∧
    traceFactStart TKind.ascii busyConfig.ctrl = none ∧
    step busyConfig Ev.traceAsciiClick = busyConfig := by
  have h := C3_accepted_iff busyConfig
  exact ⟨rfl, (h.2.2 rfl).1, (h.2.2 rfl).2.2.1⟩

/-- Claim C4: when worker creation, parsing and the mark-exports step
succeed but the start-execution step fails, `programInfo` keeps the
parse result, `factCounts` stays unset and both durations stay zero, the
failure description is stored, the phase is `Failed`, no `getCounts`
request is ever issued, and the pipeline has ended. -/
theorem C4_start_failure (info : NemoProgramInfo) (msg : String) :
    (c4trace info msg).ctrl.programInfo = some info ∧
    (c4trace info msg).ctrl.factCounts = none ∧
    (c4trace info msg).ctrl.initializationDuration = 0 ∧
    (c4trace info msg).ctrl.reasoningDuration = 0 ∧
    (c4trace info msg).ctrl.parseError = some msg ∧
    phase (c4trace info msg).ctrl = Phase.Failed ∧
    (c4trace info msg).requests.contains (Req.counts 0) = false ∧
    (c4trace info msg).pipelines = [] :=
  ⟨rfl, rfl, rfl, rfl, rfl, rfl, rfl, rfl⟩

/-- Claim C5 counterexample: a successful run stores an ASCII trace
result; the following `stop()` discards the session (`programInfo`
cleared) yet the stored trace result and its format survive, and they
equally survive the start of a new `run()`. -/
theorem C5_trace_slot_survives_counterexample :
    (runTrace (c5trace ++ [Ev.stopClick])).ctrl.tracingFormat = TracingFormat.ASCII ∧
    (runTrace (c5trace ++ [Ev.stopClick])).ctrl.tracingResult = some "trace-output" ∧
    (runTrace (c5trace ++ [Ev.stopClick])).ctrl.programInfo = none ∧
    (runTrace (c5trace ++ [Ev.runStart])).ctrl.tracingFormat = TracingFormat.ASCII ∧
    (runTrace (c5trace ++ [Ev.runStart])).ctrl.tracingResult = some "trace-output" :=
  ⟨rfl, rfl, rfl, rfl, rfl⟩

/-- Claim C5 (amended): neither `stop()` nor the start of a new `run()`
touches the stored trace result or its format; the slot is only ever
overwritten by a later trace completion. -/
theorem C5_trace_slot_preserved (t : List Ev) :
    (runTrace (t ++ [Ev.stopClick])).ctrl.tracingFormat = (runTrace t).ctrl.tracingFormat ∧
    (runTrace (t ++ [Ev.stopClick])).ctrl.tracingResult = (runTrace t).ctrl.tracingResult ∧
    (runTrace (t ++ [Ev.runStart])).ctrl.tracingFormat = (runTrace t).ctrl.tracingFormat ∧
    (runTrace (t ++ [Ev.runStart])).ctrl.tracingResult = (runTrace t).ctrl.tracingResult := by
  have hs : runTrace (t ++ [Ev.stopClick]) = step (runTrace t) Ev.stopClick := by
    rw [runTrace_append]; rfl
  have hr : runTrace (t ++ [Ev.runStart]) = step (runTrace t) Ev.runStart := by
    rw [runTrace_append]; rfl
  rw [hs, hr]
  exact ⟨rfl, rfl, rfl, rfl⟩

/-- Claim C6: `stop()` is idempotent; after any event sequence, a second
`stopClick` leaves the entire configuration (component state, owned
handle, request log, termination log) exactly as the first left it. -/
theorem C6_stop_idempotent (t : List Ev) :
    runTrace (t ++ [Ev.stopClick, Ev.stopClick]) = runTrace (t ++ [Ev.stopClick]) := by
  rw [runTrace_append, runTrace_append]
  exact step_stop_stop (runTrace t)

/-- Claim C7: the binding map submitted to `worker.start` maps a
resource name to the file of the last binding carrying that name among
the bindings whose file is present: bindings without a file are dropped,
and a later duplicate binding shadows every earlier one. -/
theorem C7_bindings_filter_last_wins (inputs : List Binding) (k : String) :
    ((startBindings inputs).find? (fun kv => kv.1 == k)).map Prod.snd
      = (((inputs.filter fun b => b.file.isSome).reverse.find?
            (fun b => b.resource == k)).map Binding.file) := by
  rw [startBindings, objectFromEntries, find?_foldl_upsert]
  simp only [List.find?_nil, Option.or_none]
  rw [startEntries, ← List.filter_reverse, ← List.map_reverse, ← List.filter_reverse]
  exact find?_entries_eq inputs.reverse k

/-- Claim C8 counterexample: with `factCounts` present but lacking an
entry for the predicate, the label is the bare name, exactly as when
`factCounts` is absent; so the label is not always of the shape
`name (count)` whenever `factCounts` is present. -/
theorem C8_label_counterexample :
    resultTabs ["p"] (some { outputPredicates := [], factsOfDerivedPredicates := 0 }) = ["p"] ∧
    resultTabs ["p"] none = ["p"] :=
  ⟨rfl, rfl⟩

/-- Claim C8 (amended): the result tabs list the output predicates in
lexicographic order independently of arrival order (permutation
invariance plus sortedness), and a predicate's label is `name (count)`
exactly when `factCounts` is present and has an entry for it, and the
bare name otherwise. -/
theorem C8_tabs_sorted_labels (l1 l2 : List String) (fc : Option FactCounts)
    (h : List.Perm l1 l2) :
    resultTabs l1 fc = resultTabs l2 fc ∧
    List.Sorted strLeProp (sortStrings l1) ∧
    List.Perm (sortStrings l1) l1 ∧
    (∀ p, fc = none → tabTitle fc p = p) ∧
    (∀ p n f, fc = some f →
        f.outputPredicates.find? (fun q => q.1 == p) = some (p, n) →
        tabTitle fc p = p ++ " (" ++ toString n ++ ")") ∧
    (∀ p f, fc = some f →
        f.outputPredicates.find? (fun q => q.1 == p) = none →
        tabTitle fc p = p) := by
  refine ⟨?_, sortStrings_sorted l1, sortStrings_perm l1, ?_, ?_, ?_⟩
  · rw [resultTabs, resultTabs, sortStrings_eq_of_perm l1 l2 h]
  · intro p hfc; subst hfc; rfl
  · intro p n f hfc hfind; subst hfc; simp [tabTitle, hfind]
  · intro p f hfc hfind; subst hfc; simp [tabTitle, hfind]

/-- Claim C8 amended witness: the reference scenario; predicate names
arriving as q, p produce the same tabs as p, q, namely the labels
p (3) and q (0). -/
theorem C8_tabs_sorted_labels_witness :
    List.Perm (["q", "p"] : List String) ["p", "q"] ∧
    resultTabs ["q", "p"] (some fcSample) = resultTabs ["p", "q"] (some fcSample) ∧
    resultTabs ["q", "p"] (some fcSample) = ["p (3)", "q (0)"] :=
  ⟨by decide, (C8_tabs_sorted_labels ["q", "p"] ["p", "q"] (some fcSample) (by decide)).1,
    by decide⟩

/-- Claim C9 counterexample: the index update applied to an empty
registry at index 0 does not fail fast; it silently extends the list,
creating a partially formed binding (a resource with no file, or a file
with no resource). -/
theorem C9_replace_counterexample :
    replaceResourceAt [] 0 "x" = [{ resource := some "x", file := none }] ∧
    (replaceResourceAt [] 0 "x").length = 1 ∧
    replaceFileAt [] 0 7 = [{ resource := none, file := some 7 }] :=
  ⟨rfl, rfl, rfl⟩

/-- Claim C9 (amended): `replaceAt` with an out-of-range index never
signals a failure: it totally returns a list extended to length
`i + 1` whose element at `i` is a partially formed binding (the updated
field is set, the other field absent). -/
theorem C9_replace_out_of_range (l : List JsBinding) (i : Nat) (v : String) (f : Blob)
    (h : l.length ≤ i) :
    (replaceResourceAt l i v).length = i + 1 ∧
    (replaceResourceAt l i v)[i]? = some { resource := some v, file := none } ∧
    (replaceFileAt l i f).length = i + 1 ∧
    (replaceFileAt l i f)[i]? = some { resource := none, file := some f } := by
  have hnot : ¬ i < l.length := by omega
  have hget : l[i]? = none := by
    rw [List.getElem?_eq_none h]
  have hlen : ∀ x : JsBinding,
      (l ++ List.replicate (i - l.length) holeBinding ++ [x]).length = i + 1 := by
    intro x
    simp only [List.length_append, List.length_replicate, List.length_singleton]
    omega
  have hat : ∀ x : JsBinding,
      (l ++ List.replicate (i - l.length) holeBinding ++ [x])[i]? = some x := by
    intro x
    have hlen2 : (l ++ List.replicate (i - l.length) holeBinding).length = i := by
      simp only [List.length_append, List.length_replicate]
      omega
    rw [List.getElem?_append_right (by omega), hlen2]
    simp
  refine ⟨?_, ?_, ?_, ?_⟩
  · rw [replaceResourceAt, jsSetAt]
    simp only [hnot, if_false, hget]
    exact hlen _
  · rw [replaceResourceAt, jsSetAt]
    simp only [hnot, if_false, hget]
    exact hat _
  · rw [replaceFileAt, jsSetAt]
    simp only [hnot, if_false, hget]
    exact hlen _
  · rw [replaceFileAt, jsSetAt]
    simp only [hnot, if_false, hget]
    exact hat _

/-- Claim C9 amended witness: updating the empty registry at index 2
yields a three-element list whose element 2 is the partial binding. -/
theorem C9_replace_out_of_range_witness :
    ([] : List JsBinding).length ≤ 2 ∧
    (replaceResourceAt [] 2 "x").length = 3 ∧
    (replaceResourceAt [] 2 "x")[2]? = some { resource := some "x", file := none } ∧
    (replaceFileAt [] 2 7).length = 3 ∧
    (replaceFileAt [] 2 7)[2]? = some { resource := none, file := some 7 } := by
  have h := C9_replace_out_of_range [] 2 "x" 7 (by decide)
  exact ⟨by decide, h.1, h.2.1, h.2.2.1, h.2.2.2⟩

/-- Claim C10: when no worker handle is owned, both trace operations
return immediately: no request reaches any worker and the configuration,
including the stored trace result and format, is unchanged. -/
theorem C10_trace_requires_handle (c : Config) (h : c.ctrl.workerRef = none) :
    traceFactStart TKind.ascii c.ctrl = none ∧
    traceFactStart TKind.evonne c.ctrl = none ∧
    step c Ev.traceAsciiClick = c ∧
    step c Ev.traceEvonneClick = c := by
  have h1 : traceFactStart TKind.ascii c.ctrl = none := by
    simp [traceFactStart, h]
  have h2 : traceFactStart TKind.evonne c.ctrl = none := by
    simp [traceFactStart, h]
  exact ⟨h1, h2, by simp [step, traceClick, h1], by simp [step, traceClick, h2]⟩

/-- Claim C10 witness: a configuration where tracing is otherwise
allowed (program parsed, worker idle) but no handle is owned; the call
is rejected and nothing changes. -/
theorem C10_trace_requires_handle_witness :
    isTracingCurrentlyAllowed noHandleConfig.ctrl = true ∧
    traceFactStart TKind.ascii noHandleConfig.ctrl = none ∧
    step noHandleConfig Ev.traceAsciiClick = noHandleConfig ∧
    step noHandleConfig Ev.traceEvonneClick = noHandleConfig := by
  have h := C10_trace_requires_handle noHandleConfig rfl
  exact ⟨rfl, h.1, h.2.2.1, h.2.2.2⟩

end ExecutionPanel
